import Mathlib

/-
Verification of the AuthenticationApp client (src/static/js/script.js) and of
the connection-registry core specified in spec.md.

The client-side definitions below are shallow embeddings of the functions in
src/static/js/script.js (the current revision of the file, i.e. the second of
the two concatenated revisions shipped in the repository).  JavaScript values
appearing in those functions are modelled as follows: parsed JSON values are
the inductive JVal (arrays are omitted: no claim quantifies over array
payloads); a possibly-absent object property is an Option JVal, with none
standing for undefined; JavaScript truthiness is the Bool function truthy.

The server side of the repository (the FastAPI app with the registry,
broadcaster and upgrade handler) is not present under src/, so those
components are modelled from the spec, as marked on each definition.
-/

/-- A JSON value as produced by JSON.parse, restricted to the shapes the
claims quantify over (null, booleans, numbers, strings and objects). -/
inductive JVal
  | jnull
  | jbool (b : Bool)
  | jnum (n : Int)
  | jstr (s : String)
  | jobj (fields : List (String × JVal))

/-- Property access obj.k in JavaScript: a lookup that yields the field value
of an object, and undefined (none) on a non-object or a missing key.  Objects
coming from JSON.parse are assumed to have distinct keys. -/
def getField : JVal → String → Option JVal
  | JVal.jobj fields, k => List.lookup k fields
  | _, _ => none

/-- JavaScript truthiness of a possibly-undefined value. -/
def truthy : Option JVal → Bool
  | none => false
  | some JVal.jnull => false
  | some (JVal.jbool b) => b
  | some (JVal.jnum n) => !(n == 0)
  | some (JVal.jstr s) => !(s == "")
  | some (JVal.jobj _) => true

/-- JavaScript strict equality x === s of a possibly-undefined value with a
string literal: true exactly when x is that string. -/
def strictEqStr : Option JVal → String → Bool
  | some (JVal.jstr s), t => s == t
  | _, _ => false

/-- String coercion of a value interpolated into a template literal. -/
def jvalToString : JVal → String
  | JVal.jnull => "null"
  | JVal.jbool b => if b then "true" else "false"
  | JVal.jnum n => toString n
  | JVal.jstr s => s
  | JVal.jobj _ => "[object Object]"

theorem strictEqStr_eq_true_iff (o : Option JVal) (t : String) :
    strictEqStr o t = true ↔ o = some (JVal.jstr t) := by
  cases o with
  | none => simp [strictEqStr]
  | some v => cases v <;> simp [strictEqStr]

/-- The readyState values of a browser WebSocket. -/
inductive ReadyState
  | CONNECTING
  | OPEN
  | CLOSING
  | CLOSED
deriving DecidableEq

/-- A client-side WebSocket object: the url it was constructed with and its
current readyState.  A freshly constructed WebSocket is CONNECTING. -/
structure WSocket where
  url : String
  readyState : ReadyState
deriving DecidableEq

/-- The client-side state touched by connectWebSocket: the page location
fields it reads and the module-level webSocket variable (null modelled as
none). -/
structure ClientState where
  protocol : String
  host : String
  webSocket : Option WSocket
deriving DecidableEq

/-- API_URL constant of script.js. -/
def API_URL : String := "/api"

/-- JavaScript truthiness test !token for the token argument, which is either
a string or null/undefined (none). -/
def jsFalsyStr : Option String → Bool
  | none => true
  | some s => s == ""

/-- The guard webSocket and webSocket.readyState === WebSocket.OPEN. -/
def alreadyOpen (st : ClientState) : Bool :=
  match st.webSocket with
  | some ws => decide (ws.readyState = ReadyState.OPEN)
  | none => false

/-- The wsUrl template literal of connectWebSocket. -/
def wsUrl (protocol host token : String) : String :=
  (if protocol = "https:" then "wss:" else "ws:") ++ "//" ++ host ++ API_URL
    ++ "/ws/" ++ token

/-- connectWebSocket (script.js, second revision, lines 363 to 378): return
early on a falsy token or an already-open socket, otherwise construct a new
WebSocket at wsUrl and store it in the module-level variable. -/
def connectWebSocket (st : ClientState) (token : Option String) : ClientState :=
  if jsFalsyStr token then st
  else if alreadyOpen st then st
  else { st with
    webSocket := some ⟨wsUrl st.protocol st.host (token.getD ""), ReadyState.CONNECTING⟩ }

/-- One p element in the notifications container, as built by addNotification:
its css class (the notification type) and the interpolated message text. -/
structure NotifEntry where
  ntype : String
  message : String
deriving DecidableEq

/-- The trimming while loop of addNotification: while the container has more
than 10 children, remove the last child. -/
def dropLastWhileGT10 {α : Type} (l : List α) : List α :=
  if _h : l.length > 10 then dropLastWhileGT10 l.dropLast else l
termination_by l.length
decreasing_by
  simp only [List.length_dropLast]
  omega

theorem dropLastWhileGT10_eq_take {α : Type} (l : List α) :
    dropLastWhileGT10 l = l.take 10 := by
  rw [dropLastWhileGT10]
  by_cases h : l.length > 10
  · rw [dif_pos h, dropLastWhileGT10_eq_take l.dropLast, List.dropLast_eq_take,
      List.take_take]
    congr 1
    omega
  · rw [dif_neg h, List.take_of_length_le]
    omega
termination_by l.length
decreasing_by
  simp only [List.length_dropLast]
  omega

/-- addNotification (script.js lines 414 to 442): build a p element of the
given type holding the message, insert it before the first child of the
notifications container, then trim the container to at most 10 children by
repeatedly removing the last child. -/
def addNotification (notifs : List NotifEntry) (message : String)
    (ntype : String) : List NotifEntry :=
  dropLastWhileGT10 (⟨ntype, message⟩ :: notifs)

/-- The webSocket.onmessage handler body (script.js lines 388 to 398) acting
on the notifications container.  The whole body runs inside try/catch, so the
handler is a total function of the parse outcome: parsed = none is the case
in which JSON.parse (or a property access on a null parse result) threw, and
the catch block only logs.  Otherwise a notification is added exactly when
messageData.type === "new_user" and messageData.message is truthy. -/
def onmessage (notifs : List NotifEntry) (parsed : Option JVal) :
    List NotifEntry :=
  match parsed with
  | none => notifs
  | some v =>
      if strictEqStr (getField v "type") "new_user" && truthy (getField v "message") then
        addNotification notifs (jvalToString ((getField v "message").getD JVal.jnull)) "info"
      else notifs

/-- The onmessage handler seen together with the connection state: the handler
body never touches the webSocket variable and never calls close, so the
socket state passes through unchanged on every input. -/
def onmessageHandler (st : ClientState) (notifs : List NotifEntry)
    (parsed : Option JVal) : ClientState × List NotifEntry :=
  (st, onmessage notifs parsed)

/-- validatePassword (script.js lines 524 to 534). -/
def validatePassword (password confirmPassword : String) : Option String :=
  if password.length < 8 then some "Password must be at least 8 characters."
  else if password ≠ confirmPassword then some "Passwords do not match."
  else none

/-- Observable outcome of one submit of the register form: whether
handleRegister was invoked, and the error message displayed by the listener
through setStatus when validation fails. -/
structure RegisterSubmitResult where
  handleRegisterCalled : Bool
  statusMessage : Option String
deriving DecidableEq

/-- The registerForm submit listener (script.js lines 537 to 550): run
validatePassword; on an error message, display it and return without calling
handleRegister; otherwise call handleRegister. -/
def registerSubmit (password confirmPassword : String) : RegisterSubmitResult :=
  match validatePassword password confirmPassword with
  | some err => ⟨false, some err⟩
  | none => ⟨true, none⟩

/-- The client authentication state handleLogin can mutate: the module-level
authToken variable and the authToken entry of localStorage. -/
structure AuthState where
  authToken : Option String
  storedToken : Option String
deriving DecidableEq

/-- Outcome of the awaited apiRequest call in handleLogin: either the request
threw (rejected promise or non-ok response) or it resolved with parsed JSON
data. -/
inductive LoginOutcome
  | requestError
  | response (data : JVal)

/-- handleLogin (script.js lines 453 to 468) restricted to its effect on the
authentication state: only when the response data has a truthy access_token
are authToken and localStorage assigned; the no-token throw and any request
error land in the catch block, which only sets a status message. -/
def handleLogin (st : AuthState) (outcome : LoginOutcome) : AuthState :=
  match outcome with
  | LoginOutcome.requestError => st
  | LoginOutcome.response data =>
      if truthy (getField data "access_token") then
        ⟨some (jvalToString ((getField data "access_token").getD JVal.jnull)),
         some (jvalToString ((getField data "access_token").getD JVal.jnull))⟩
      else st

/-- Modelled from the spec: the Connection lifecycle states of section 4.3.
The server-side FastAPI application is not under src, so the registry core is
modelled from spec.md. -/
inductive ConnState
  | OPEN
  | CLOSING
  | CLOSED
deriving DecidableEq

/-- Modelled from the spec: a Connection of section 3, restricted to the
fields the claims mention (id, resolved user identity, lifecycle state). -/
structure SysConn where
  id : Nat
  userIdentity : String
  state : ConnState
deriving DecidableEq

/-- Modelled from the spec: the process-wide state of the core, holding every
Connection ever created (with its current lifecycle state) and the Registry
as the list of currently registered Connection ids. -/
structure Sys where
  conns : List SysConn
  reg : List Nat
deriving DecidableEq

/-- Modelled from the spec: the events that mutate the core state.  connect is
a successful upgrade (section 4.5 step 3); reject is a refused upgrade for an
invalid token (section 4.5 step 2); beginClose moves an OPEN Connection to
CLOSING and removes it from the Registry (section 4.3, first half of a
teardown); closeDone moves a CLOSING Connection to its terminal CLOSED state
(second half of a teardown). -/
inductive Ev
  | connect (ident : String)
  | reject
  | beginClose (i : Nat)
  | closeDone (i : Nat)

/-- First half of a teardown applied to one Connection record. -/
def closeBeginConn (i : Nat) (c : SysConn) : SysConn :=
  if c.id = i ∧ c.state = ConnState.OPEN then ⟨c.id, c.userIdentity, ConnState.CLOSING⟩
  else c

/-- Second half of a teardown applied to one Connection record. -/
def closeDoneConn (i : Nat) (c : SysConn) : SysConn :=
  if c.id = i ∧ c.state = ConnState.CLOSING then ⟨c.id, c.userIdentity, ConnState.CLOSED⟩
  else c

/-- Modelled from the spec: the transition function of the core.  A connect
assigns a fresh, never-reused id (ids are allocated in sequence), creates the
Connection in OPEN state and inserts it into the Registry; a reject does
nothing; beginClose removes the id from the Registry (idempotently, a remove
of an absent id is a no-op) while the Connection leaves OPEN; closeDone makes
the Connection CLOSED. -/
def sysStep (s : Sys) : Ev → Sys
  | Ev.connect ident =>
      ⟨⟨s.conns.length, ident, ConnState.OPEN⟩ :: s.conns, s.conns.length :: s.reg⟩
  | Ev.reject => s
  | Ev.beginClose i =>
      ⟨s.conns.map (closeBeginConn i), s.reg.filter (fun j => decide (j ≠ i))⟩
  | Ev.closeDone i => ⟨s.conns.map (closeDoneConn i), s.reg⟩

/-- Modelled from the spec: the Registry starts empty at process start. -/
def initSys : Sys := ⟨[], []⟩

/-- The state reached after a sequence of events from process start. -/
def runEvents (evs : List Ev) : Sys := evs.foldl sysStep initSys

/-- Modelled from the spec: Registry.snapshot of section 4.2, the point-in-time
sequence of currently registered Connections. -/
def snapshot (s : Sys) : List SysConn :=
  s.conns.filter (fun c => decide (c.id ∈ s.reg))

/-- Modelled from the spec: Registry.size of section 4.2. -/
def size (s : Sys) : Nat := s.reg.length

/-- Whether a delivery attempt to one Connection succeeded. -/
def deliverOk (deliver : SysConn → Except String Unit) (c : SysConn) : Bool :=
  match deliver c with
  | Except.ok _ => true
  | Except.error _ => false

/-- Modelled from the spec: one broadcast pass of section 4.4: each Connection
of the snapshot gets an independent delivery attempt; the pass partitions the
snapshot into delivered and failed Connections and never raises. -/
def broadcastPass (snap : List SysConn) (deliver : SysConn → Except String Unit) :
    List SysConn × List SysConn :=
  match snap with
  | [] => ([], [])
  | c :: rest =>
      if deliverOk deliver c then
        (c :: (broadcastPass rest deliver).1, (broadcastPass rest deliver).2)
      else
        ((broadcastPass rest deliver).1, c :: (broadcastPass rest deliver).2)

/-- A full teardown of one Connection (section 4.3): OPEN to CLOSING with
removal from the Registry, then CLOSING to CLOSED. -/
def teardown (s : Sys) (i : Nat) : Sys :=
  sysStep (sysStep s (Ev.beginClose i)) (Ev.closeDone i)

/-- Modelled from the spec: Broadcaster.publish of section 4.4.  It takes a
snapshot, runs the broadcast pass, and tears down every failed Connection.
Its type returns a plain state, not an Except: no per-connection failure
surfaces to the caller. -/
def publish (s : Sys) (deliver : SysConn → Except String Unit) : Sys :=
  ((broadcastPass (snapshot s) deliver).2).foldl (fun st c => teardown st c.id) s

/-- Modelled from the spec: the Upgrade Handler of section 4.5 up to registry
insertion, parametrised by the Token Validator.  The validator is consulted
exactly once; on failure the attempt terminates immediately with no retry and
no Connection creation. -/
def upgradeHandler (validate : String → Option String) (tok : String) (s : Sys) : Sys :=
  match validate tok with
  | none => sysStep s Ev.reject
  | some ident => sysStep s (Ev.connect ident)

/-- A concrete delivery function for witnesses: delivery to the Connection
with id 0 fails, every other delivery succeeds. -/
def deliverFailZero (c : SysConn) : Except String Unit :=
  if c.id = 0 then Except.error "transport closed" else Except.ok ()

/-- Ids of the created Connections are exactly the sequence of allocation,
so ids are process-unique and never reused. -/
def idsCanonical (s : Sys) : Prop :=
  s.conns.map SysConn.id = (List.range s.conns.length).reverse

/-- The registry invariant of section 3: an id is registered exactly when a
Connection with that id exists in OPEN state. -/
def regOpenIff (s : Sys) : Prop :=
  ∀ i : Nat, i ∈ s.reg ↔ ∃ c : SysConn, c ∈ s.conns ∧ c.id = i ∧ c.state = ConnState.OPEN

theorem closeBeginConn_id (i : Nat) (c : SysConn) : (closeBeginConn i c).id = c.id := by
  unfold closeBeginConn
  split <;> rfl

theorem closeDoneConn_id (i : Nat) (c : SysConn) : (closeDoneConn i c).id = c.id := by
  unfold closeDoneConn
  split <;> rfl

theorem closeBeginConn_eq_of_ne (i : Nat) (c : SysConn) (h : c.id ≠ i) :
    closeBeginConn i c = c := by
  unfold closeBeginConn
  exact if_neg (fun hc => h hc.1)

theorem closeBeginConn_state_ne_open (i : Nat) (c : SysConn) (h : c.id = i) :
    (closeBeginConn i c).state ≠ ConnState.OPEN := by
  unfold closeBeginConn
  by_cases hs : c.state = ConnState.OPEN
  · rw [if_pos ⟨h, hs⟩]
    intro hx
    cases hx
  · rw [if_neg (fun hc => hs hc.2)]
    exact hs

theorem closeDoneConn_open_iff (i : Nat) (c : SysConn) :
    (closeDoneConn i c).state = ConnState.OPEN ↔ c.state = ConnState.OPEN := by
  unfold closeDoneConn
  by_cases hc : c.id = i ∧ c.state = ConnState.CLOSING
  · rw [if_pos hc, hc.2]
    constructor
    · intro hx; cases hx
    · intro hx; cases hx
  · rw [if_neg hc]

theorem regOpenIff_sysStep (s : Sys) (e : Ev) (h : regOpenIff s) :
    regOpenIff (sysStep s e) := by
  cases e with
  | connect ident =>
      intro i
      simp only [sysStep]
      constructor
      · intro hi
        rcases List.mem_cons.mp hi with hi0 | hi1
        · exact ⟨⟨s.conns.length, ident, ConnState.OPEN⟩, List.mem_cons_self _ _,
            hi0.symm, rfl⟩
        · obtain ⟨c, hc, hcid, hcst⟩ := (h i).mp hi1
          exact ⟨c, List.mem_cons_of_mem _ hc, hcid, hcst⟩
      · rintro ⟨c, hc, hcid, hcst⟩
        rcases List.mem_cons.mp hc with rfl | hc1
        · exact List.mem_cons.mpr (Or.inl hcid.symm)
        · exact List.mem_cons.mpr (Or.inr ((h i).mpr ⟨c, hc1, hcid, hcst⟩))
  | reject => exact h
  | beginClose i0 =>
      intro j
      simp only [sysStep]
      constructor
      · intro hj
        have hjf := List.mem_filter.mp hj
        have hjne : j ≠ i0 := by
          have := hjf.2
          rwa [decide_eq_true_eq] at this
        obtain ⟨c, hc, hcid, hcst⟩ := (h j).mp hjf.1
        refine ⟨closeBeginConn i0 c, List.mem_map_of_mem _ hc, ?_, ?_⟩
        · rw [closeBeginConn_id]
          exact hcid
        · rw [closeBeginConn_eq_of_ne i0 c (by rw [hcid]; exact hjne)]
          exact hcst
      · rintro ⟨c1, hc1, hcid1, hcst1⟩
        obtain ⟨c, hc, rfl⟩ := List.mem_map.mp hc1
        have hne : c.id ≠ i0 := fun heq => closeBeginConn_state_ne_open i0 c heq hcst1
        rw [closeBeginConn_eq_of_ne i0 c hne] at hcid1 hcst1
        refine List.mem_filter.mpr ⟨(h j).mpr ⟨c, hc, hcid1, hcst1⟩, ?_⟩
        rw [decide_eq_true_eq]
        rw [← hcid1]
        exact hne
  | closeDone i0 =>
      intro j
      simp only [sysStep]
      constructor
      · intro hj
        obtain ⟨c, hc, hcid, hcst⟩ := (h j).mp hj
        refine ⟨closeDoneConn i0 c, List.mem_map_of_mem _ hc, ?_, ?_⟩
        · rw [closeDoneConn_id]
          exact hcid
        · exact (closeDoneConn_open_iff i0 c).mpr hcst
      · rintro ⟨c1, hc1, hcid1, hcst1⟩
        obtain ⟨c, hc, rfl⟩ := List.mem_map.mp hc1
        have hcop : c.state = ConnState.OPEN := (closeDoneConn_open_iff i0 c).mp hcst1
        have hcid : c.id = j := by
          rw [← closeDoneConn_id i0 c]
          exact hcid1
        exact (h j).mpr ⟨c, hc, hcid, hcop⟩

theorem idsCanonical_sysStep (s : Sys) (e : Ev) (h : idsCanonical s) :
    idsCanonical (sysStep s e) := by
  cases e with
  | connect ident =>
      unfold idsCanonical at h ⊢
      simp only [sysStep, List.map_cons, List.length_cons, List.range_succ,
        List.reverse_append, List.reverse_singleton, List.singleton_append]
      rw [h]
  | reject => exact h
  | beginClose i0 =>
      unfold idsCanonical at h ⊢
      simp only [sysStep, List.map_map, List.length_map]
      have hfe : SysConn.id ∘ closeBeginConn i0 = SysConn.id :=
        funext (fun c => closeBeginConn_id i0 c)
      rw [hfe, h]
  | closeDone i0 =>
      unfold idsCanonical at h ⊢
      simp only [sysStep, List.map_map, List.length_map]
      have hfe : SysConn.id ∘ closeDoneConn i0 = SysConn.id :=
        funext (fun c => closeDoneConn_id i0 c)
      rw [hfe, h]

theorem invariants_foldl (evs : List Ev) (s : Sys) (h1 : idsCanonical s)
    (h2 : regOpenIff s) :
    idsCanonical (evs.foldl sysStep s) ∧ regOpenIff (evs.foldl sysStep s) := by
  induction evs generalizing s with
  | nil => exact ⟨h1, h2⟩
  | cons e rest ih =>
      exact ih (sysStep s e) (idsCanonical_sysStep s e h1) (regOpenIff_sysStep s e h2)

theorem invariants_runEvents (evs : List Ev) :
    idsCanonical (runEvents evs) ∧ regOpenIff (runEvents evs) := by
  have h1 : idsCanonical initSys := by
    simp [idsCanonical, initSys]
  have h2 : regOpenIff initSys := by
    intro i
    simp [initSys]
  exact invariants_foldl evs initSys h1 h2

theorem conns_id_inj (s : Sys) (h : idsCanonical s) {c c1 : SysConn}
    (hc : c ∈ s.conns) (hc1 : c1 ∈ s.conns) (hid : c.id = c1.id) : c = c1 := by
  have hnd : (s.conns.map SysConn.id).Nodup := by
    rw [h]
    exact List.nodup_reverse.mpr (List.nodup_range _)
  exact List.inj_on_of_nodup_map hnd hc hc1 hid

theorem broadcastPass_delivered_sub (snap : List SysConn)
    (deliver : SysConn → Except String Unit) :
    ∀ c : SysConn, c ∈ (broadcastPass snap deliver).1 → c ∈ snap := by
  induction snap with
  | nil =>
      intro c hc
      simp [broadcastPass] at hc
  | cons a rest ih =>
      intro c hc
      cases hd : deliverOk deliver a with
      | true =>
          have hEq : broadcastPass (a :: rest) deliver
              = (a :: (broadcastPass rest deliver).1, (broadcastPass rest deliver).2) := by
            simp [broadcastPass, hd]
          rw [hEq] at hc
          rcases List.mem_cons.mp hc with rfl | hcr
          · exact List.mem_cons_self _ _
          · exact List.mem_cons_of_mem _ (ih c hcr)
      | false =>
          have hEq : broadcastPass (a :: rest) deliver
              = ((broadcastPass rest deliver).1, a :: (broadcastPass rest deliver).2) := by
            simp [broadcastPass, hd]
          rw [hEq] at hc
          exact List.mem_cons_of_mem _ (ih c hc)

/-- C1: for an invalid, missing, malformed or expired token (any token the
validator rejects), the upgrade is refused: the core state is unchanged, so
no Connection object is created and Registry size is unchanged, and the
single synchronous validation terminates the attempt with no retry; on the
client side, connectWebSocket invoked with no token constructs no WebSocket
object. -/
theorem unauthorized_upgrade_refused (validate : String → Option String)
    (tok : String) (s : Sys) (st : ClientState) (hv : validate tok = none) :
    upgradeHandler validate tok s = s ∧
    size (upgradeHandler validate tok s) = size s ∧
    (upgradeHandler validate tok s).conns = s.conns ∧
    connectWebSocket st none = st := by
  unfold upgradeHandler
  rw [hv]
  exact ⟨rfl, rfl, rfl, rfl⟩

theorem unauthorized_upgrade_refused_witness :
    upgradeHandler (fun _ => none) "expiredtoken" initSys = initSys ∧
    size (upgradeHandler (fun _ => none) "expiredtoken" initSys) = size initSys ∧
    (upgradeHandler (fun _ => none) "expiredtoken" initSys).conns = initSys.conns ∧
    connectWebSocket ⟨"https:", "example.com", none⟩ none
      = ⟨"https:", "example.com", none⟩ :=
  unauthorized_upgrade_refused (fun _ => none) "expiredtoken" initSys
    ⟨"https:", "example.com", none⟩ rfl

/-- C2: in one broadcast pass over a snapshot, every Connection whose own
delivery succeeds ends up delivered, no matter which other deliveries fail
(a failure never aborts the rest of the pass), every Connection of the
snapshot is attempted exactly once, and the pass (hence publish, whose type
returns a plain state) never propagates an error to the caller. -/
theorem broadcast_failure_isolated (snap : List SysConn)
    (deliver : SysConn → Except String Unit) :
    (∀ c : SysConn, c ∈ snap → deliverOk deliver c = true →
      c ∈ (broadcastPass snap deliver).1) ∧
    (∀ c : SysConn, c ∈ snap →
      c ∈ (broadcastPass snap deliver).1 ∨ c ∈ (broadcastPass snap deliver).2) ∧
    (broadcastPass snap deliver).1.length + (broadcastPass snap deliver).2.length
      = snap.length := by
  induction snap with
  | nil =>
      refine ⟨?_, ?_, rfl⟩ <;> intro c hc <;> simp at hc
  | cons a rest ih =>
      obtain ⟨ih1, ih2, ih3⟩ := ih
      cases hd : deliverOk deliver a with
      | true =>
          have hEq : broadcastPass (a :: rest) deliver
              = (a :: (broadcastPass rest deliver).1, (broadcastPass rest deliver).2) := by
            simp [broadcastPass, hd]
          refine ⟨?_, ?_, ?_⟩
          · intro c hc hok
            rw [hEq]
            rcases List.mem_cons.mp hc with rfl | hcr
            · exact List.mem_cons_self _ _
            · exact List.mem_cons_of_mem _ (ih1 c hcr hok)
          · intro c hc
            rw [hEq]
            rcases List.mem_cons.mp hc with rfl | hcr
            · exact Or.inl (List.mem_cons_self _ _)
            · rcases ih2 c hcr with hin1 | hin2
              · exact Or.inl (List.mem_cons_of_mem _ hin1)
              · exact Or.inr hin2
          · rw [hEq]
            simp only [List.length_cons]
            omega
      | false =>
          have hEq : broadcastPass (a :: rest) deliver
              = ((broadcastPass rest deliver).1, a :: (broadcastPass rest deliver).2) := by
            simp [broadcastPass, hd]
          refine ⟨?_, ?_, ?_⟩
          · intro c hc hok
            rw [hEq]
            rcases List.mem_cons.mp hc with rfl | hcr
            · rw [hd] at hok
              cases hok
            · exact ih1 c hcr hok
          · intro c hc
            rw [hEq]
            rcases List.mem_cons.mp hc with rfl | hcr
            · exact Or.inr (List.mem_cons_self _ _)
            · rcases ih2 c hcr with hin1 | hin2
              · exact Or.inl hin1
              · exact Or.inr (List.mem_cons_of_mem _ hin2)
          · rw [hEq]
            simp only [List.length_cons]
            omega

theorem broadcast_failure_isolated_witness :
    (⟨1, "bob", ConnState.OPEN⟩ : SysConn) ∈
      (broadcastPass [⟨0, "alice", ConnState.OPEN⟩, ⟨1, "bob", ConnState.OPEN⟩]
        deliverFailZero).1 :=
  (broadcast_failure_isolated _ deliverFailZero).1 _ (by decide) rfl

/-- C3: in every reachable state, an id is in the Registry exactly when a
Connection with that id is in state OPEN; a CLOSED Connection is never
registered, never appears in a snapshot taken after its removal, and hence
receives no delivery attempt from a broadcast pass over such a snapshot. -/
theorem registry_contains_iff_open (evs : List Ev) :
    (∀ i : Nat, i ∈ (runEvents evs).reg ↔
      ∃ c : SysConn, c ∈ (runEvents evs).conns ∧ c.id = i ∧
        c.state = ConnState.OPEN) ∧
    (∀ c : SysConn, c ∈ (runEvents evs).conns → c.state = ConnState.CLOSED →
      c.id ∉ (runEvents evs).reg ∧ c ∉ snapshot (runEvents evs) ∧
      ∀ deliver : SysConn → Except String Unit,
        c ∉ (broadcastPass (snapshot (runEvents evs)) deliver).1) := by
  obtain ⟨h1, h2⟩ := invariants_runEvents evs
  refine ⟨h2, ?_⟩
  intro c hc hcl
  have hreg : c.id ∉ (runEvents evs).reg := by
    intro hmem
    obtain ⟨c1, hc1, hid1, hst1⟩ := (h2 c.id).mp hmem
    have hce : c1 = c := conns_id_inj _ h1 hc1 hc hid1
    rw [hce, hcl] at hst1
    cases hst1
  have hsnap : c ∉ snapshot (runEvents evs) := by
    intro hmem
    have hdec := (List.mem_filter.mp hmem).2
    rw [decide_eq_true_eq] at hdec
    exact hreg hdec
  refine ⟨hreg, hsnap, ?_⟩
  intro deliver hmem
  exact hsnap (broadcastPass_delivered_sub _ deliver c hmem)

theorem registry_contains_iff_open_witness :
    (⟨0, "alice", ConnState.CLOSED⟩ : SysConn) ∉
      snapshot (runEvents [Ev.connect "alice", Ev.beginClose 0, Ev.closeDone 0]) :=
  ((registry_contains_iff_open [Ev.connect "alice", Ev.beginClose 0, Ev.closeDone 0]).2
    ⟨0, "alice", ConnState.CLOSED⟩ (by decide) rfl).2.1

/-- C4: whenever the client actually issues a connection-upgrade request for
a non-empty token t (no socket already open), the constructed WebSocket
targets exactly the path /api/ws/ followed by t, with the wss: scheme when
the page protocol is https: and the ws: scheme otherwise. -/
theorem connect_targets_token_path (st : ClientState) (t : String)
    (hne : t ≠ "") (hop : alreadyOpen st = false) :
    (connectWebSocket st (some t)).webSocket =
      some ⟨(if st.protocol = "https:" then "wss:" else "ws:") ++ "//" ++ st.host
        ++ "/api/ws/" ++ t, ReadyState.CONNECTING⟩ := by
  have hkey : ∀ x : String, x ++ "/api" ++ "/ws/" = x ++ "/api/ws/" := by
    intro x
    rw [String.append_assoc]
    rfl
  have hf : jsFalsyStr (some t) = false := by
    unfold jsFalsyStr
    simp [hne]
  simp only [connectWebSocket, hf, hop, Bool.false_eq_true, if_false]
  simp only [wsUrl, API_URL, Option.getD]
  rw [hkey]

theorem connect_targets_token_path_witness :
    (connectWebSocket ⟨"https:", "example.com", none⟩ (some "tok123")).webSocket =
      some ⟨"wss://example.com/api/ws/tok123", ReadyState.CONNECTING⟩ :=
  connect_targets_token_path ⟨"https:", "example.com", none⟩ "tok123"
    (by decide) rfl

/-- C5 counterexample to the claim as stated: a message whose type field is
new_user and whose message field is the string "" is not rendered, because
the handler additionally requires messageData.message to be truthy; the
notifications display is left unchanged instead of receiving the entry. -/
theorem new_user_empty_message_not_rendered :
    onmessage []
        (some (JVal.jobj [("type", JVal.jstr "new_user"), ("message", JVal.jstr "")]))
      = ([] : List NotifEntry) ∧
    onmessage []
        (some (JVal.jobj [("type", JVal.jstr "new_user"), ("message", JVal.jstr "")]))
      ≠ addNotification [] "" "info" := by
  have h1 : onmessage []
      (some (JVal.jobj [("type", JVal.jstr "new_user"), ("message", JVal.jstr "")]))
      = ([] : List NotifEntry) := rfl
  refine ⟨h1, ?_⟩
  rw [h1, addNotification, dropLastWhileGT10_eq_take]
  decide

/-- C5 (amended): a received message whose type field is not the string
new_user leaves the notifications display unchanged; one whose type field is
new_user and whose message field is a truthy value (for a string, non-empty)
gets its message rendered through addNotification, with any unknown or extra
fields of the object tolerated. -/
theorem new_user_message_rendered (notifs : List NotifEntry) (v : JVal) :
    (getField v "type" ≠ some (JVal.jstr "new_user") →
      onmessage notifs (some v) = notifs) ∧
    (∀ ms : String, getField v "type" = some (JVal.jstr "new_user") →
      getField v "message" = some (JVal.jstr ms) → ms ≠ "" →
      onmessage notifs (some v) = addNotification notifs ms "info") := by
  constructor
  · intro hne
    have hfalse : strictEqStr (getField v "type") "new_user" = false := by
      cases hb : strictEqStr (getField v "type") "new_user"
      · rfl
      · exact absurd ((strictEqStr_eq_true_iff _ _).mp hb) hne
    simp only [onmessage]
    rw [hfalse]
    simp
  · intro ms hty hms hne
    have htrue : strictEqStr (getField v "type") "new_user" = true :=
      (strictEqStr_eq_true_iff _ _).mpr hty
    have htr : truthy (getField v "message") = true := by
      rw [hms]
      unfold truthy
      simp [hne]
    simp only [onmessage]
    rw [htrue, htr, hms]
    simp [jvalToString]

theorem new_user_message_rendered_witness :
    onmessage []
        (some (JVal.jobj [("type", JVal.jstr "new_user"),
          ("message", JVal.jstr "bob joined"), ("extra", JVal.jnum 7)]))
      = addNotification [] "bob joined" "info" :=
  (new_user_message_rendered [] _).2 "bob joined" rfl rfl (by decide)

/-- C7: a payload that is not parseable as JSON lands in the catch block of
the handler, which only logs: the handler returns normally (it is a total
function), the connection state is untouched and the notifications display is
unchanged. -/
theorem malformed_message_dropped (st : ClientState) (notifs : List NotifEntry) :
    onmessageHandler st notifs none = (st, notifs) := rfl

/-- C8: after any call to addNotification the notifications container holds
at most 10 entries, and the entry just added is the first child. -/
theorem notifications_bounded_newest_first (notifs : List NotifEntry)
    (message ntype : String) :
    (addNotification notifs message ntype).length ≤ 10 ∧
    (addNotification notifs message ntype).head? = some ⟨ntype, message⟩ := by
  unfold addNotification
  rw [dropLastWhileGT10_eq_take]
  constructor
  · rw [List.length_take]
    exact Nat.min_le_left _ _
  · rfl

/-- C9: handleRegister is invoked by the register form submit listener exactly
when the password has length at least 8 and equals the confirmation; on any
violating submission no request is made and an error status is displayed. -/
theorem register_requires_valid_password (password confirmPassword : String) :
    ((registerSubmit password confirmPassword).handleRegisterCalled = true ↔
      8 ≤ password.length ∧ password = confirmPassword) ∧
    (¬ (8 ≤ password.length ∧ password = confirmPassword) →
      (registerSubmit password confirmPassword).handleRegisterCalled = false ∧
      ((registerSubmit password confirmPassword).statusMessage).isSome = true) := by
  unfold registerSubmit validatePassword
  by_cases h1 : password.length < 8
  · simp [h1]
  · by_cases h2 : password = confirmPassword
    · subst h2
      simp [h1]
      omega
    · simp [h1, h2]

theorem register_requires_valid_password_witness :
    (registerSubmit "short" "short").handleRegisterCalled = false ∧
    ((registerSubmit "short" "short").statusMessage).isSome = true :=
  (register_requires_valid_password "short" "short").2 (by decide)

/-- C10: a failing login attempt (request error, or a response without a
truthy access_token) leaves the client authentication state unchanged: both
the authToken variable and the stored localStorage entry keep their prior
values. -/
theorem login_failure_preserves_auth_state (st : AuthState) :
    handleLogin st LoginOutcome.requestError = st ∧
    (∀ data : JVal, truthy (getField data "access_token") = false →
      handleLogin st (LoginOutcome.response data) = st) := by
  constructor
  · rfl
  · intro data h
    simp only [handleLogin]
    rw [h]
    simp

theorem login_failure_preserves_auth_state_witness :
    handleLogin ⟨some "oldtok", some "oldtok"⟩
        (LoginOutcome.response (JVal.jobj [("detail", JVal.jstr "bad credentials")]))
      = ⟨some "oldtok", some "oldtok"⟩ :=
  (login_failure_preserves_auth_state ⟨some "oldtok", some "oldtok"⟩).2 _ rfl

/-- C6: invoking connectWebSocket while the stored socket is already open is
a no-op for any token: the client state, including the existing socket, is
returned unchanged, so no new WebSocket is created and the open connection is
neither replaced nor closed. -/
theorem connect_noop_when_already_open (st : ClientState) (token : Option String)
    (hop : alreadyOpen st = true) :
    connectWebSocket st token = st := by
  simp [connectWebSocket, hop]

theorem connect_noop_when_already_open_witness :
    connectWebSocket
        ⟨"https:", "example.com",
          some ⟨"wss://example.com/api/ws/tok", ReadyState.OPEN⟩⟩ (some "tok")
      = ⟨"https:", "example.com",
          some ⟨"wss://example.com/api/ws/tok", ReadyState.OPEN⟩⟩ :=
  connect_noop_when_already_open _ (some "tok") rfl
